import Mathlib

set_option maxRecDepth 8000

/-!
Verification of the crev proof codec/parser (src/crev-data/src/proof/mod.rs)
and identity vault (src/crev-lib/src/id.rs) against their specification.

Shallow embedding conventions:
* Rust `String` is Lean `String`; `str::len` (UTF-8 byte count) is `bytelen`.
* Byte vectors (`Vec<u8>`) are `List Nat` with every element `< 256`.
* External cryptographic primitives (ed25519 signing, blake2b, argon2,
  AES-SIV) and the base64 codec live in crates outside this repository;
  they are modelled from the spec, symbolically where the spec requires
  only their ideal behaviour. Each such definition carries a
  `Modelled from the spec:` doc comment.
-/

/-- Decidable equality for `Except`, used to evaluate parser and unlock
results on concrete inputs. -/
instance exceptDecEq {e a : Type} [DecidableEq e] [DecidableEq a] :
    DecidableEq (Except e a) := fun x y =>
  match x, y with
  | .error u, .error v => decidable_of_iff (u = v) (by simp)
  | .ok u, .ok v => decidable_of_iff (u = v) (by simp)
  | .error _, .ok _ => isFalse (by simp)
  | .ok _, .error _ => isFalse (by simp)

/-! ## String and byte-level helpers -/

/-- Extensionality for strings via their character data. -/
theorem str_ext {a b : String} (h : a.data = b.data) : a = b :=
  congrArg String.mk h

theorem sdata_append (a b : String) : (a ++ b).data = a.data ++ b.data := by
  cases a; cases b; rfl

theorem sappend_assoc (a b c : String) : a ++ b ++ c = a ++ (b ++ c) := by
  apply str_ext; simp [sdata_append]

theorem sappend_empty (a : String) : a ++ "" = a := by
  apply str_ext; simp [sdata_append]

theorem empty_sappend (a : String) : "" ++ a = a := by
  apply str_ext; simp [sdata_append]

/-- Model of Rust `String::len`: the UTF-8 byte length of a string. -/
def bytelen (s : String) : Nat := (s.data.map Char.utf8Size).sum

theorem bytelen_append (a b : String) : bytelen (a ++ b) = bytelen a + bytelen b := by
  simp [bytelen, sdata_append]

/-- Drop leading whitespace characters. -/
def dropWs (l : List Char) : List Char := l.dropWhile Char.isWhitespace

/-- Model of Rust `str::trim`: drop whitespace from both ends. -/
def trimS (s : String) : String := ⟨((dropWs s.data).reverse |> dropWs).reverse⟩

theorem dropWs_eq_self {l : List Char} (h : ∀ c ∈ l, ¬ Char.isWhitespace c) :
    dropWs l = l := by
  cases l with
  | nil => rfl
  | cons a t =>
    have : ¬ Char.isWhitespace a := h a (by simp)
    simp [dropWs, List.dropWhile, this]

theorem trimS_eq_self {s : String} (h : ∀ c ∈ s.data, ¬ Char.isWhitespace c) :
    trimS s = s := by
  apply str_ext
  show ((dropWs s.data).reverse |> dropWs).reverse = s.data
  rw [dropWs_eq_self h]
  rw [dropWs_eq_self (by intro c hc; exact h c (List.mem_reverse.mp hc))]
  exact List.reverse_reverse _

/-- Accumulate lines the way the parser does: `acc ++ line ++ "\n"`. -/
def joinln (ls : List String) : String := ls.foldl (fun a l => a ++ l ++ "\n") ""

theorem joinln_foldl (ls : List String) (acc : String) :
    ls.foldl (fun a l => a ++ l ++ "\n") acc = acc ++ joinln ls := by
  induction ls generalizing acc with
  | nil => simp [joinln, sappend_empty]
  | cons l t ih =>
    show t.foldl _ (acc ++ l ++ "\n") = _
    rw [ih, joinln]
    show _ = acc ++ List.foldl _ ("" ++ l ++ "\n") t
    rw [ih ("" ++ l ++ "\n"), empty_sappend, sappend_assoc, sappend_assoc, sappend_assoc]
    rfl

theorem joinln_cons (l : String) (t : List String) :
    joinln (l :: t) = l ++ "\n" ++ joinln t := by
  show List.foldl _ ("" ++ l ++ "\n") t = _
  rw [joinln_foldl, empty_sappend]

theorem joinln_nil : joinln ([] : List String) = "" := rfl

theorem bytelen_newline : bytelen "\n" = 1 := by decide

/-! ## Base64 (URL-safe alphabet), modelled from the external base64 crate.

Modelled from the spec: signatures are stored as "text(base64)" in the
URL-safe alphabet, decoded again during verification. -/

def b64alphabet : List Char :=
  "ABCDEFGHIJKLMNOPQRSTUVWXYZabcdefghijklmnopqrstuvwxyz0123456789-_".data

def sextetChar (n : Nat) : Char := b64alphabet.getD n 'A'

def charSextet (c : Char) : Option Nat := b64alphabet.indexOf? c

theorem charSextet_sextetChar : ∀ n < 64, charSextet (sextetChar n) = some n := by decide

theorem sextetChar_ne_pad : ∀ n < 64, sextetChar n ≠ '=' := by decide

theorem b64alphabet_length : b64alphabet.length = 64 := by decide

theorem sextetChar_not_ws (n : Nat) : ¬ (sextetChar n).isWhitespace := by
  by_cases h : n < 64
  · revert n h
    decide
  · have : sextetChar n = 'A' := by
      unfold sextetChar
      apply List.getD_eq_default
      rw [b64alphabet_length]; omega
    rw [this]; decide

/-- Encode a byte list into base64 characters, three bytes per four sextets,
with '=' padding exactly as the base64 crate does. -/
def b64encodeChunks : List Nat → List Char
  | a :: b :: c :: rest =>
    sextetChar (a / 4) :: sextetChar ((a % 4) * 16 + b / 16) ::
      sextetChar ((b % 16) * 4 + c / 64) :: sextetChar (c % 64) :: b64encodeChunks rest
  | [a, b] => [sextetChar (a / 4), sextetChar ((a % 4) * 16 + b / 16),
      sextetChar ((b % 16) * 4), '=']
  | [a] => [sextetChar (a / 4), sextetChar ((a % 4) * 16), '=', '=']
  | [] => []

/-- Decode base64 characters back into bytes; `none` on malformed input. -/
def b64decodeChunks : List Char → Option (List Nat)
  | [] => some []
  | c1 :: c2 :: c3 :: c4 :: rest => do
    let a ← charSextet c1
    let b ← charSextet c2
    if c3 = '=' then
      if c4 = '=' ∧ rest = [] then pure [a * 4 + b / 16] else none
    else
      let c ← charSextet c3
      if c4 = '=' then
        if rest = [] then pure [a * 4 + b / 16, (b % 16) * 16 + c / 4] else none
      else
        let d ← charSextet c4
        let bs ← b64decodeChunks rest
        pure ((a * 4 + b / 16) :: ((b % 16) * 16 + c / 4) :: ((c % 4) * 64 + d) :: bs)
  | _ => none

def b64encode (bs : List Nat) : String := ⟨b64encodeChunks bs⟩

def b64decode (s : String) : Option (List Nat) := b64decodeChunks s.data

theorem b64_roundtrip : ∀ bs : List Nat, (∀ b ∈ bs, b < 256) →
    b64decodeChunks (b64encodeChunks bs) = some bs := by
  intro bs
  induction bs using b64encodeChunks.induct with
  | case1 a b c rest ih =>
    intro h
    have ha : a < 256 := h a (by simp)
    have hb : b < 256 := h b (by simp)
    have hc : c < 256 := h c (by simp)
    rw [b64encodeChunks, b64decodeChunks]
    rw [charSextet_sextetChar _ (by omega), charSextet_sextetChar _ (by omega),
        charSextet_sextetChar _ (by omega), charSextet_sextetChar _ (by omega)]
    rw [ih (by intro x hx; exact h x (by simp [hx]))]
    have h3 : sextetChar ((b % 16) * 4 + c / 64) ≠ '=' := sextetChar_ne_pad _ (by omega)
    have h4 : sextetChar (c % 64) ≠ '=' := sextetChar_ne_pad _ (by omega)
    simp [h3, h4]
    constructor
    · omega
    constructor
    · omega
    · omega
  | case2 a b =>
    intro h
    have ha : a < 256 := h a (by simp)
    have hb : b < 256 := h b (by simp)
    rw [b64encodeChunks, b64decodeChunks]
    rw [charSextet_sextetChar _ (by omega), charSextet_sextetChar _ (by omega),
        charSextet_sextetChar _ (by omega)]
    have h3 : sextetChar ((b % 16) * 4) ≠ '=' := sextetChar_ne_pad _ (by omega)
    simp [h3]
    constructor
    · omega
    · omega
  | case3 a =>
    intro h
    have ha : a < 256 := h a (by simp)
    rw [b64encodeChunks, b64decodeChunks]
    rw [charSextet_sextetChar _ (by omega), charSextet_sextetChar _ (by omega)]
    simp
    omega
  | case4 => intro _; rfl

theorem b64encodeChunks_not_ws : ∀ bs : List Nat, ∀ c ∈ b64encodeChunks bs,
    ¬ c.isWhitespace := by
  intro bs
  induction bs using b64encodeChunks.induct with
  | case1 a b c rest ih =>
    rw [b64encodeChunks]
    intro x hx
    simp at hx
    rcases hx with h | h | h | h | h
    · rw [h]; exact sextetChar_not_ws _
    · rw [h]; exact sextetChar_not_ws _
    · rw [h]; exact sextetChar_not_ws _
    · rw [h]; exact sextetChar_not_ws _
    · exact ih x h
  | case2 a b =>
    rw [b64encodeChunks]
    intro x hx
    simp at hx
    rcases hx with h | h | h | h
    · rw [h]; exact sextetChar_not_ws _
    · rw [h]; exact sextetChar_not_ws _
    · rw [h]; exact sextetChar_not_ws _
    · rw [h]; decide
  | case3 a =>
    rw [b64encodeChunks]
    intro x hx
    simp at hx
    rcases hx with h | h | h
    · rw [h]; exact sextetChar_not_ws _
    · rw [h]; exact sextetChar_not_ws _
    · rw [h]; decide
  | case4 => intro x hx; simp [b64encodeChunks] at hx

theorem trimS_b64encode (bs : List Nat) : trimS (b64encode bs) = b64encode bs :=
  trimS_eq_self (by intro c hc; exact b64encodeChunks_not_ws bs c hc)

/-! ## Injective pairing of byte lists

Used by the symbolic models of the external cryptographic primitives:
an invertible byte-level encoding of a pair of byte lists (unary length
prefix, then a 0 terminator, then the two lists). -/

def encodePair (a b : List Nat) : List Nat :=
  List.replicate a.length 1 ++ 0 :: (a ++ b)

def decodePairAux : Nat → List Nat → Option (List Nat × List Nat)
  | k, 0 :: rest => if k ≤ rest.length then some (rest.take k, rest.drop k) else none
  | k, 1 :: rest => decodePairAux (k + 1) rest
  | _, _ => none

def decodePair (l : List Nat) : Option (List Nat × List Nat) := decodePairAux 0 l

theorem decodePairAux_replicate (m : Nat) : ∀ (k : Nat) (rest : List Nat),
    decodePairAux k (List.replicate m 1 ++ 0 :: rest) = decodePairAux (k + m) (0 :: rest) := by
  induction m with
  | zero => intro k rest; rfl
  | succ n ih =>
    intro k rest
    rw [List.replicate_succ]
    show decodePairAux (k + 1) (List.replicate n 1 ++ 0 :: rest) = _
    rw [ih (k + 1)]
    congr 1
    omega

theorem decodePair_encodePair (a b : List Nat) :
    decodePair (encodePair a b) = some (a, b) := by
  unfold decodePair encodePair
  rw [decodePairAux_replicate, Nat.zero_add]
  rw [decodePairAux]
  rw [if_pos (by simp)]
  rw [List.take_left, List.drop_left]

theorem encodePair_inj {a b a' b' : List Nat} (h : encodePair a b = encodePair a' b') :
    a = a' ∧ b = b' := by
  have h2 := congrArg decodePair h
  rw [decodePair_encodePair, decodePair_encodePair] at h2
  simp at h2
  exact h2

theorem encodePair_lt256 {a b : List Nat} (ha : ∀ x ∈ a, x < 256)
    (hb : ∀ x ∈ b, x < 256) : ∀ x ∈ encodePair a b, x < 256 := by
  intro x hx
  simp [encodePair, List.mem_replicate, List.mem_append] at hx
  rcases hx with ⟨_, h⟩ | h | h | h
  · omega
  · omega
  · exact ha x h
  · exact hb x h

/-! ## UTF-8 bytes of a string

Model of Rust `str::as_bytes`: the UTF-8 encoding of the string. -/

def utf8Bytes (c : Char) : List Nat :=
  if c.toNat < 128 then [c.toNat]
  else if c.toNat < 2048 then [192 + c.toNat / 64, 128 + c.toNat % 64]
  else if c.toNat < 65536 then
    [224 + c.toNat / 4096, 128 + (c.toNat / 64) % 64, 128 + c.toNat % 64]
  else
    [240 + c.toNat / 262144, 128 + (c.toNat / 4096) % 64,
      128 + (c.toNat / 64) % 64, 128 + c.toNat % 64]

def strBytes (s : String) : List Nat :=
  s.data.foldr (fun c acc => utf8Bytes c ++ acc) []

theorem char_toNat_lt (c : Char) : c.toNat < 1114112 := by
  have hv := c.valid
  simp [UInt32.isValidChar, Nat.isValidChar] at hv
  show c.val.toNat < 1114112
  omega

theorem utf8Bytes_lt256 (c : Char) : ∀ x ∈ utf8Bytes c, x < 256 := by
  have hn := char_toNat_lt c
  intro x hx
  unfold utf8Bytes at hx
  split at hx
  · simp at hx; omega
  · split at hx
    · simp at hx; omega
    · split at hx
      · simp at hx; omega
      · simp at hx; omega

theorem strBytes_lt256 (s : String) : ∀ x ∈ strBytes s, x < 256 := by
  show ∀ x ∈ s.data.foldr (fun c acc => utf8Bytes c ++ acc) [], x < 256
  induction s.data with
  | nil => intro x hx; simp at hx
  | cons c t ih =>
    intro x hx
    simp only [List.foldr_cons, List.mem_append] at hx
    rcases hx with h | h
    · exact utf8Bytes_lt256 c x h
    · exact ih x h

/-! ## Symbolic models of the external cryptographic primitives -/

/-- Modelled from the spec: `crev_common::blake2sum`, a fixed-size (64-byte)
content hash over a byte string (the crev-common crate is not under src/).
Only determinism and fixed output size are modelled. -/
def blake2sum (bs : List Nat) : List Nat :=
  (List.range 64).map (fun i => bs.foldl (fun a b => (a * 131 + b + i + 1) % 256) 0)

/-- Modelled from the spec: ed25519 public-key derivation from a secret key
(crev-data's id module is not under src/). Deterministic; the tag keeps the
result a byte list when the secret is one. -/
def pubkeyOf (secret : List Nat) : List Nat := 3 :: secret

/-- Modelled from the spec: the memory-hard password-hash key derivation
(argon2 via the argonautica crate, not under src/). Symbolic ideal KDF:
deterministic, and injective in both passphrase and salt. -/
def deriveKey (passphrase : String) (salt : List Nat) : List Nat :=
  encodePair (passphrase.data.map Char.toNat) salt

/-- Modelled from the spec: AES-SIV `seal` — nonce-misuse-resistant
authenticated encryption of a plaintext under a key and nonce (the miscreant
crate is not under src/). Symbolic ideal AEAD. -/
def sivSeal (key nonce pt : List Nat) : List Nat :=
  encodePair key (encodePair nonce pt)

/-- Modelled from the spec: AES-SIV `open` — authenticated decryption;
succeeds exactly on a ciphertext sealed under the same key and nonce,
otherwise fails with an authentication error (`none`). -/
def sivOpen (key nonce ct : List Nat) : Option (List Nat) :=
  match decodePair ct with
  | none => none
  | some (k, rest) =>
    match decodePair rest with
    | none => none
    | some (n, pt) => if k = key ∧ n = nonce then some pt else none

theorem sivOpen_sivSeal (key nonce pt : List Nat) :
    sivOpen key nonce (sivSeal key nonce pt) = some pt := by
  unfold sivOpen sivSeal
  simp [decodePair_encodePair]

theorem sivOpen_wrong_key {key key' nonce pt : List Nat} (h : key' ≠ key) :
    sivOpen key' nonce (sivSeal key nonce pt) = none := by
  have h2 : ¬ (key = key') := fun he => h he.symm
  unfold sivOpen sivSeal
  simp [decodePair_encodePair, h2]

theorem deriveKey_inj_pass {pw pw' : String} {salt : List Nat} (h : pw ≠ pw') :
    deriveKey pw salt ≠ deriveKey pw' salt := by
  intro he
  apply h
  have h2 := (encodePair_inj he).1
  have h3 : pw.data = pw'.data := by
    apply List.map_injective_iff.mpr _ h2
    intro c d hcd
    have ht : c.val.toNat = d.val.toNat := hcd
    exact Char.ext (UInt32.ext ht)
  exact str_ext h3

/-! ## Identities and content model

`PubId`, `OwnId` and the per-variant content types live in crev-data modules
that are not under src/; they are modelled from the spec. The `Content`
enum, its accessors and `sign_by` are translated from
src/crev-data/src/proof/mod.rs. -/

/-- Modelled from the spec: a public identity — stable id fingerprint
(public key bytes) plus optional claimed URL. -/
structure PubIdM where
  id : List Nat
  url : Option String
deriving DecidableEq, Repr

/-- Modelled from the spec: an ed25519 keypair; `wf` states the invariant
that the public key is the one derived from the secret key. -/
structure KeyPair where
  secret : List Nat
  public : List Nat
deriving DecidableEq, Repr

def KeyPair.wf (kp : KeyPair) : Prop := kp.public = pubkeyOf kp.secret

/-- Modelled from the spec: an owning identity — a `PubId` plus the keypair
holding the private signing key. -/
structure OwnId where
  id : PubIdM
  keypair : KeyPair
deriving DecidableEq, Repr

/-- Modelled from the spec: `OwnId::new(url, sec_key)` — reconstruct an
identity from a recovered secret key, recomputing the public key. -/
def OwnId.new (url : String) (sec_key : List Nat) : OwnId :=
  { id := { id := pubkeyOf sec_key, url := some url },
    keypair := { secret := sec_key, public := pubkeyOf sec_key } }

/-- Modelled from the spec: `OwnId::sign` — the ed25519 signing primitive
over a message, symbolically: a signature is the injective pairing of the
signer's (derived) public key with the exact message bytes, and the
verification primitive accepts exactly that pairing. -/
def OwnId.sign (id : OwnId) (msg : List Nat) : List Nat :=
  encodePair (pubkeyOf id.keypair.secret) msg

/-- Per-variant content payload. Modelled from the spec: every variant
carries an author `PubId` and a timestamp; `extra` stands for the remaining
serialized fields of the variant (review data, trust level, ...). -/
structure ContentData where
  author : PubIdM
  date : Int
  extra : String
deriving DecidableEq, Repr

/-- Content is an enumerator of possible proof contents
(src/crev-data/src/proof/mod.rs, `enum Content`). -/
inductive Content
  | trust : ContentData → Content
  | project : ContentData → Content
  | code : ContentData → Content
deriving DecidableEq, Repr

/-- ProofType (src/crev-data/src/proof/mod.rs, `enum ProofType`). -/
inductive ProofType
  | Code
  | Project
  | Trust
deriving DecidableEq, Repr

/-- Modelled from the spec: each variant's literal begin-block marker
(the BEGIN_BLOCK constants live in crev-data review/trust modules not under
src/; the literals are placeholders, distinct per variant). -/
def ProofType.begin_block : ProofType → String
  | .Code => "-----BEGIN CODE REVIEW-----"
  | .Project => "-----BEGIN PROJECT REVIEW-----"
  | .Trust => "-----BEGIN CREV TRUST-----"

/-- Modelled from the spec: each variant's literal begin-signature marker. -/
def ProofType.begin_signature : ProofType → String
  | .Code => "-----BEGIN CODE REVIEW SIGNATURE-----"
  | .Project => "-----BEGIN PROJECT REVIEW SIGNATURE-----"
  | .Trust => "-----BEGIN CREV TRUST SIGNATURE-----"

/-- Modelled from the spec: each variant's literal end-block marker. -/
def ProofType.end_block : ProofType → String
  | .Code => "-----END CODE REVIEW-----"
  | .Project => "-----END PROJECT REVIEW-----"
  | .Trust => "-----END CREV TRUST-----"

def Content.data : Content → ContentData
  | .trust d => d
  | .project d => d
  | .code d => d

/-- `Content::proof_type` (src/crev-data/src/proof/mod.rs). -/
def Content.proof_type : Content → ProofType
  | .trust _ => .Trust
  | .code _ => .Code
  | .project _ => .Project

/-- `Content::author_id` (src/crev-data/src/proof/mod.rs): the author's id
(public key fingerprint) of any variant. -/
def Content.author_id (c : Content) : List Nat := c.data.author.id

def variantName : ProofType → String
  | .Code => "code review"
  | .Project => "project review"
  | .Trust => "trust"

/-- Modelled from the spec: the canonical, deterministic, byte-stable
structured-text serialization of a content value (the per-variant serde
serializers live in crev-data modules not under src/). -/
def Content.render (c : Content) : String :=
  "kind: " ++ variantName c.proof_type ++ "\n" ++
    "from: " ++ b64encode c.data.author.id ++ "\n" ++ c.data.extra

/-- Split a character list at newline characters (the model's line
splitter; structurally recursive). -/
def splitNlChars : List Char → List (List Char)
  | [] => [[]]
  | c :: rest =>
    if c = '\n' then [] :: splitNlChars rest
    else
      match splitNlChars rest with
      | [] => [[c]]
      | h :: t => (c :: h) :: t

def splitNl (s : String) : List String := (splitNlChars s.data).map String.mk

/-- Strip a literal prefix from a string, or fail. -/
def stripPre (pre s : String) : Option String :=
  if s.data.take pre.data.length = pre.data then some ⟨s.data.drop pre.data.length⟩
  else none

/-- Rejoin lines with newlines. -/
def joinNl : List String → String
  | [] => ""
  | [x] => x
  | x :: rest => x ++ "\n" ++ joinNl rest

/-- Modelled from the spec: the per-variant structured-text deserializer
(`Trust::parse` etc., not under src/): checks the variant tag line and
decodes the author key; invalid structure yields `none`. The model does not
recover the timestamp or URL (no claim depends on them). -/
def Content.parse (s : String) (type_ : ProofType) : Option Content :=
  match splitNl s with
  | tagLine :: authorLine :: rest =>
    if tagLine = "kind: " ++ variantName type_ then
      match stripPre "from: " authorLine with
      | none => none
      | some a =>
        match b64decode a with
        | some key =>
          some (match type_ with
            | .Trust => .trust { author := { id := key, url := none }, date := 0,
                                 extra := joinNl rest }
            | .Code => .code { author := { id := key, url := none }, date := 0,
                               extra := joinNl rest }
            | .Project => .project { author := { id := key, url := none }, date := 0,
                                     extra := joinNl rest })
        | none => none
    else none
  | _ => none

/-! ## Proof, signing, verification (src/crev-data/src/proof/mod.rs) -/

/-- A `Proof` with its content parsed and ready (struct `Proof`). -/
structure Proof where
  body : String
  signature : String
  digest : List Nat
  content : Content
deriving DecidableEq, Repr

/-- `Content::sign_by` (src/crev-data/src/proof/mod.rs lines 132-141):
render the content to canonical body text, sign the body's UTF-8 bytes,
store the base64 (URL-safe) signature and the blake2 digest of the body. -/
def Content.sign_by (c : Content) (id : OwnId) : Proof :=
  { digest := blake2sum (strBytes c.render),
    body := c.render,
    signature := b64encode (id.sign (strBytes c.render)),
    content := c }

/-- `Proof::signature` (src/crev-data/src/proof/mod.rs lines 367-369):
the stored signature text, trimmed. -/
def Proof.signature_trimmed (p : Proof) : String := trimS p.signature

inductive VerifyError
  | badEncoding
  | badSignature
deriving DecidableEq, Repr

/-- Modelled from the spec: `Id::verify_signature` (crev-data id module not
under src/): decode the base64 signature (fail `badEncoding` on malformed
text), then run the signature-verification primitive over the given message
bytes; fail `badSignature` on mismatch. -/
def verify_signature (pubkey : List Nat) (msg : List Nat) (sig_text : String) :
    Except VerifyError Unit :=
  match b64decode sig_text with
  | none => .error .badEncoding
  | some sig => if sig = encodePair pubkey msg then .ok () else .error .badSignature

/-- `Proof::verify` (src/crev-data/src/proof/mod.rs lines 371-377): resolve
the public key from `content.author_id()` and check the signature over the
literal stored body bytes. -/
def Proof.verify (p : Proof) : Except VerifyError Unit :=
  verify_signature p.content.author_id (strBytes p.body) p.signature_trimmed

/-- The sequence of strings written by `impl fmt::Display for Proof`
(src/crev-data/src/proof/mod.rs lines 214-228), one element per
`write_str` call. -/
def Proof.renderParts (p : Proof) : List String :=
  [p.content.proof_type.begin_block, "\n", p.body,
   p.content.proof_type.begin_signature, "\n", p.signature, "\n",
   p.content.proof_type.end_block, "\n"]

/-- Rendering a `Proof` to text (`impl fmt::Display for Proof`). -/
def Proof.render (p : Proof) : String := String.join p.renderParts

/-! ## Serialized records and the line-oriented parser
(src/crev-data/src/proof/mod.rs lines 230-343) -/

/-- Serialized proof record (struct `Serialized`). -/
structure Serialized where
  body : String
  signature : String
  type_ : ProofType
deriving DecidableEq, Repr

/-- `Serialized::to_parsed` (src/crev-data/src/proof/mod.rs lines 231-242):
parse the body into typed content and package it with the blake2 digest of
the body bytes. -/
def Serialized.to_parsed (s : Serialized) : Option Proof :=
  match Content.parse s.body s.type_ with
  | none => none
  | some c =>
    some { body := s.body, signature := s.signature,
           digest := blake2sum (strBytes s.body), content := c }

/-- Parser stage (enum `Stage` inside `Serialized::parse`). -/
inductive Stage
  | None
  | Body
  | Signature
deriving DecidableEq, Repr

/-- Parser state (struct `State` inside `Serialized::parse`). -/
structure ParseState where
  stage : Stage
  body : String
  signature : String
  type_ : ProofType
  proofs : List Serialized
deriving DecidableEq, Repr

/-- `impl Default for State`: stage None, empty accumulators, Trust type. -/
def initState : ParseState :=
  { stage := .None, body := "", signature := "", type_ := .Trust, proofs := [] }

inductive ParseError
  | unexpectedLine
  | bodyTooLarge
  | signatureTooLarge
  | unexpectedEof
deriving DecidableEq, Repr

/-- `State::process_line` (src/crev-data/src/proof/mod.rs lines 279-326). -/
def process_line (st : ParseState) (line : String) : Except ParseError ParseState :=
  match st.stage with
  | .None =>
    let l := trimS line
    if l = "" then .ok st
    else if l = ProofType.Code.begin_block then
      .ok { st with type_ := .Code, stage := .Body }
    else if l = ProofType.Trust.begin_block then
      .ok { st with type_ := .Trust, stage := .Body }
    else if l = ProofType.Project.begin_block then
      .ok { st with type_ := .Project, stage := .Body }
    else .error .unexpectedLine
  | .Body =>
    let st' :=
      if trimS line = st.type_.begin_signature then { st with stage := .Signature }
      else { st with body := st.body ++ line ++ "\n" }
    if bytelen st'.body > 16000 then .error .bodyTooLarge else .ok st'
  | .Signature =>
    let st' :=
      if trimS line = st.type_.end_block then
        { st with
          stage := .None
          body := ""
          signature := ""
          proofs := st.proofs ++ [⟨st.body, st.signature, st.type_⟩] }
      else { st with signature := st.signature ++ line ++ "\n" }
    if bytelen st'.signature > 2000 then .error .signatureTooLarge else .ok st'

/-- The `for line in reader.lines()` loop: process each line, propagating
the first error. -/
def processLines (st : ParseState) : List String → Except ParseError ParseState
  | [] => .ok st
  | l :: ls =>
    match process_line st l with
    | .error e => .error e
    | .ok st' => processLines st' ls

/-- `State::finish` (src/crev-data/src/proof/mod.rs lines 328-333). -/
def finishS (st : ParseState) : Except ParseError (List Serialized) :=
  if st.stage ≠ Stage.None then .error .unexpectedEof else .ok st.proofs

/-- `Serialized::parse` (src/crev-data/src/proof/mod.rs lines 244-343):
the input stream as a list of lines (without their newline terminators). -/
def Serialized.parse (ls : List String) : Except ParseError (List Serialized) :=
  match processLines initState ls with
  | .error e => .error e
  | .ok st => finishS st

theorem processLines_append (st : ParseState) (xs ys : List String) :
    processLines st (xs ++ ys) =
      match processLines st xs with
      | .error e => .error e
      | .ok st' => processLines st' ys := by
  induction xs generalizing st with
  | nil => rfl
  | cons l t ih =>
    show processLines st (l :: (t ++ ys)) = _
    cases h : process_line st l with
    | error e => simp [processLines, h]
    | ok st' => simp [processLines, h, ih st']

/-! ## Identity vault (src/crev-lib/src/id.rs) -/

/-- Modelled from the spec: `crev_data::current_version()` — the supported
format version constant (crev-data's lib module is not under src/; the
concrete value is immaterial). -/
def current_version : Int := 1

/-- KDF parameter block (struct `PassConfig`). -/
structure PassConfig where
  version : Nat
  variant : String
  iterations : Nat
  memory_size : Nat
  salt : List Nat
deriving DecidableEq, Repr

/-- On-disk locked identity (struct `LockedId`). -/
structure LockedId where
  version : Int
  url : String
  public_key : List Nat
  sealed_secret_key : List Nat
  seal_nonce : List Nat
  pass : PassConfig
deriving DecidableEq, Repr

/-- `LockedId::from_own_id` (src/crev-lib/src/id.rs lines 57-92). The random
salt and seal nonce drawn inside the Rust function are explicit arguments
here. `none` models the panicking `unwrap` of the identity's URL when the
`url` field is absent; on the happy path the Rust function's `Result` error
branch is unreachable (the modelled KDF is total). -/
def LockedId.from_own_id (own_id : OwnId) (passphrase : String)
    (salt seal_nonce : List Nat) : Option LockedId :=
  match own_id.id.url with
  | none => none
  | some url =>
    some { version := current_version
           public_key := own_id.keypair.public
           sealed_secret_key :=
             sivSeal (deriveKey passphrase salt) seal_nonce own_id.keypair.secret
           seal_nonce := seal_nonce
           url := url
           pass := { salt := salt, iterations := 192, memory_size := 4096,
                     version := 0x13, variant := "argon2id" } }

inductive UnlockError
  | unsupportedVersion
  | authFailed
  | pubKeyMismatch
deriving DecidableEq, Repr

/-- `LockedId::to_unlocked` (src/crev-lib/src/id.rs lines 120-160): reject
an unsupported version, re-derive the password hash from the stored salt,
open the sealed secret key (authenticated decryption), reconstruct the
identity and check the recomputed public key byte-for-byte against the
stored one. -/
def LockedId.to_unlocked (l : LockedId) (passphrase : String) :
    Except UnlockError OwnId :=
  if l.version ≠ current_version then .error .unsupportedVersion
  else
    match sivOpen (deriveKey passphrase l.pass.salt) l.seal_nonce l.sealed_secret_key with
    | none => .error .authFailed
    | some sec_key =>
      if l.public_key ≠ (OwnId.new l.url sec_key).keypair.public then
        .error .pubKeyMismatch
      else .ok (OwnId.new l.url sec_key)

/-- The cryptographic primitives `to_unlocked` may invoke, in order. -/
inductive CryptoOp
  | kdf
  | aeadOpen
  | pubkeyCompute
deriving DecidableEq, Repr

/-- `to_unlocked` instrumented with the list of cryptographic primitives it
executes, step for step parallel to `LockedId.to_unlocked`. -/
def LockedId.to_unlocked_traced (l : LockedId) (passphrase : String) :
    Except UnlockError OwnId × List CryptoOp :=
  if l.version ≠ current_version then (.error .unsupportedVersion, [])
  else
    match sivOpen (deriveKey passphrase l.pass.salt) l.seal_nonce l.sealed_secret_key with
    | none => (.error .authFailed, [.kdf, .aeadOpen])
    | some sec_key =>
      if l.public_key ≠ (OwnId.new l.url sec_key).keypair.public then
        (.error .pubKeyMismatch, [.kdf, .aeadOpen, .pubkeyCompute])
      else (.ok (OwnId.new l.url sec_key), [.kdf, .aeadOpen, .pubkeyCompute])

/-! ## Parser step lemmas -/

theorem trim_begin_block : ∀ t : ProofType, trimS t.begin_block = t.begin_block := by
  intro t; cases t <;> decide

theorem trim_begin_signature : ∀ t : ProofType,
    trimS t.begin_signature = t.begin_signature := by
  intro t; cases t <;> decide

theorem trim_end_block : ∀ t : ProofType, trimS t.end_block = t.end_block := by
  intro t; cases t <;> decide

theorem pl_seek_blank (bd sg : String) (tp : ProofType) (pf : List Serialized)
    (line : String) (h : trimS line = "") :
    process_line ⟨.None, bd, sg, tp, pf⟩ line = .ok ⟨.None, bd, sg, tp, pf⟩ := by
  simp [process_line, h]

theorem pl_seek_marker (bd sg : String) (tp : ProofType) (pf : List Serialized)
    (t : ProofType) :
    process_line ⟨.None, bd, sg, tp, pf⟩ t.begin_block =
      .ok ⟨.Body, bd, sg, t, pf⟩ := by
  cases t with
  | Code =>
    simp only [process_line]
    rw [trim_begin_block]
    rw [if_neg (by decide), if_pos rfl]
  | Trust =>
    simp only [process_line]
    rw [trim_begin_block]
    rw [if_neg (by decide), if_neg (by decide), if_pos rfl]
  | Project =>
    simp only [process_line]
    rw [trim_begin_block]
    rw [if_neg (by decide), if_neg (by decide), if_neg (by decide), if_pos rfl]

theorem pl_seek_garbage (bd sg : String) (tp : ProofType) (pf : List Serialized)
    (line : String) (h0 : trimS line ≠ "")
    (h1 : trimS line ≠ ProofType.Code.begin_block)
    (h2 : trimS line ≠ ProofType.Trust.begin_block)
    (h3 : trimS line ≠ ProofType.Project.begin_block) :
    process_line ⟨.None, bd, sg, tp, pf⟩ line = .error .unexpectedLine := by
  simp only [process_line]
  rw [if_neg h0, if_neg h1, if_neg h2, if_neg h3]

theorem pl_body_append (bd sg : String) (tp : ProofType) (pf : List Serialized)
    (line : String) (hm : trimS line ≠ tp.begin_signature)
    (hlen : bytelen (bd ++ line ++ "\n") ≤ 16000) :
    process_line ⟨.Body, bd, sg, tp, pf⟩ line =
      .ok ⟨.Body, bd ++ line ++ "\n", sg, tp, pf⟩ := by
  simp only [process_line]
  rw [if_neg hm, if_neg (show ¬ bytelen (bd ++ line ++ "\n") > 16000 by omega)]

theorem pl_body_marker (bd sg : String) (tp : ProofType) (pf : List Serialized)
    (line : String) (hm : trimS line = tp.begin_signature)
    (hlen : bytelen bd ≤ 16000) :
    process_line ⟨.Body, bd, sg, tp, pf⟩ line =
      .ok ⟨.Signature, bd, sg, tp, pf⟩ := by
  simp only [process_line]
  rw [if_pos hm, if_neg (show ¬ bytelen bd > 16000 by omega)]

theorem pl_sig_append (bd sg : String) (tp : ProofType) (pf : List Serialized)
    (line : String) (hm : trimS line ≠ tp.end_block)
    (hlen : bytelen (sg ++ line ++ "\n") ≤ 2000) :
    process_line ⟨.Signature, bd, sg, tp, pf⟩ line =
      .ok ⟨.Signature, bd, sg ++ line ++ "\n", tp, pf⟩ := by
  simp only [process_line]
  rw [if_neg hm, if_neg (show ¬ bytelen (sg ++ line ++ "\n") > 2000 by omega)]

theorem pl_sig_end (bd sg : String) (tp : ProofType) (pf : List Serialized)
    (line : String) (hm : trimS line = tp.end_block) :
    process_line ⟨.Signature, bd, sg, tp, pf⟩ line =
      .ok ⟨.None, "", "", tp, pf ++ [⟨bd, sg, tp⟩]⟩ := by
  simp only [process_line]
  rw [if_pos hm, if_neg (show ¬ bytelen "" > 2000 by decide)]

theorem body_phase (b : List String) : ∀ (bd sg : String) (tp : ProofType)
    (pf : List Serialized), (∀ l ∈ b, trimS l ≠ tp.begin_signature) →
    bytelen bd + bytelen (joinln b) ≤ 16000 →
    processLines ⟨.Body, bd, sg, tp, pf⟩ b = .ok ⟨.Body, bd ++ joinln b, sg, tp, pf⟩ := by
  induction b with
  | nil =>
    intro bd sg tp pf _ _
    rw [joinln_nil, sappend_empty]
    rfl
  | cons l t ih =>
    intro bd sg tp pf hm hlen
    have hclen : bytelen (joinln (l :: t)) = bytelen l + 1 + bytelen (joinln t) := by
      rw [joinln_cons, bytelen_append, bytelen_append, bytelen_newline]
    have hstep : bytelen (bd ++ l ++ "\n") ≤ 16000 := by
      rw [bytelen_append, bytelen_append, bytelen_newline]; omega
    show processLines _ (l :: t) = _
    rw [processLines, pl_body_append bd sg tp pf l (hm l (by simp)) hstep]
    show processLines ⟨.Body, bd ++ l ++ "\n", sg, tp, pf⟩ t = _
    rw [ih (bd ++ l ++ "\n") sg tp pf (fun x hx => hm x (by simp [hx])) (by
      rw [bytelen_append, bytelen_append, bytelen_newline]; omega)]
    rw [joinln_cons, sappend_assoc bd l "\n", sappend_assoc bd (l ++ "\n") (joinln t)]

theorem sig_phase (s : List String) : ∀ (bd sg : String) (tp : ProofType)
    (pf : List Serialized), (∀ l ∈ s, trimS l ≠ tp.end_block) →
    bytelen sg + bytelen (joinln s) ≤ 2000 →
    processLines ⟨.Signature, bd, sg, tp, pf⟩ s =
      .ok ⟨.Signature, bd, sg ++ joinln s, tp, pf⟩ := by
  induction s with
  | nil =>
    intro bd sg tp pf _ _
    rw [joinln_nil, sappend_empty]
    rfl
  | cons l t ih =>
    intro bd sg tp pf hm hlen
    have hclen : bytelen (joinln (l :: t)) = bytelen l + 1 + bytelen (joinln t) := by
      rw [joinln_cons, bytelen_append, bytelen_append, bytelen_newline]
    have hstep : bytelen (sg ++ l ++ "\n") ≤ 2000 := by
      rw [bytelen_append, bytelen_append, bytelen_newline]; omega
    show processLines _ (l :: t) = _
    rw [processLines, pl_sig_append bd sg tp pf l (hm l (by simp)) hstep]
    show processLines ⟨.Signature, bd, sg ++ l ++ "\n", tp, pf⟩ t = _
    rw [ih bd (sg ++ l ++ "\n") tp pf (fun x hx => hm x (by simp [hx])) (by
      rw [bytelen_append, bytelen_append, bytelen_newline]; omega)]
    rw [joinln_cons, sappend_assoc sg l "\n", sappend_assoc sg (l ++ "\n") (joinln t)]

theorem seek_blanks (g : List String) : ∀ (bd sg : String) (tp : ProofType)
    (pf : List Serialized), (∀ l ∈ g, trimS l = "") →
    processLines ⟨.None, bd, sg, tp, pf⟩ g = .ok ⟨.None, bd, sg, tp, pf⟩ := by
  induction g with
  | nil => intro bd sg tp pf _; rfl
  | cons l t ih =>
    intro bd sg tp pf h
    show processLines _ (l :: t) = _
    rw [processLines, pl_seek_blank bd sg tp pf l (h l (by simp))]
    exact ih bd sg tp pf (fun x hx => h x (by simp [hx]))

/-- The lines of one well-formed proof block. -/
def blockLines (t : ProofType) (b s : List String) : List String :=
  t.begin_block :: (b ++ t.begin_signature :: (s ++ [t.end_block]))

theorem bytelen_empty : bytelen "" = 0 := by decide

theorem processLines_cons_ok {st st' : ParseState} {l : String} (ls : List String)
    (h : process_line st l = .ok st') : processLines st (l :: ls) = processLines st' ls := by
  rw [processLines, h]

theorem processLines_append_ok {st st' : ParseState} {xs : List String} (ys : List String)
    (h : processLines st xs = .ok st') :
    processLines st (xs ++ ys) = processLines st' ys := by
  rw [processLines_append, h]

theorem block_phase (t : ProofType) (b s : List String) (tp : ProofType)
    (pf : List Serialized)
    (hb : ∀ l ∈ b, trimS l ≠ t.begin_signature)
    (hblen : bytelen (joinln b) ≤ 16000)
    (hs : ∀ l ∈ s, trimS l ≠ t.end_block)
    (hslen : bytelen (joinln s) ≤ 2000) :
    processLines ⟨.None, "", "", tp, pf⟩ (blockLines t b s) =
      .ok ⟨.None, "", "", t, pf ++ [⟨joinln b, joinln s, t⟩]⟩ := by
  unfold blockLines
  rw [processLines_cons_ok _ (pl_seek_marker "" "" tp pf t)]
  rw [processLines_append_ok _
    (body_phase b "" "" t pf hb (by rw [bytelen_empty]; omega))]
  rw [empty_sappend]
  rw [processLines_cons_ok _ (pl_body_marker (joinln b) "" t pf t.begin_signature
    (trim_begin_signature t) hblen)]
  rw [processLines_append_ok _
    (sig_phase s (joinln b) "" t pf hs (by rw [bytelen_empty]; omega))]
  rw [empty_sappend]
  rw [processLines_cons_ok _
    (pl_sig_end (joinln b) (joinln s) t pf t.end_block (trim_end_block t))]
  rfl

/-! ## Sample data used by witnesses and counterexamples -/

def sampleKeyPair : KeyPair := { secret := [1, 2], public := pubkeyOf [1, 2] }

def sampleOwnId : OwnId :=
  { id := { id := pubkeyOf [1, 2], url := some "https://example.com/crev" },
    keypair := sampleKeyPair }

def noUrlOwnId : OwnId :=
  { id := { id := pubkeyOf [1, 2], url := none }, keypair := sampleKeyPair }

def sampleContent : Content :=
  .trust { author := { id := pubkeyOf [1, 2], url := none }, date := 0, extra := "" }

def otherAuthorContent : Content :=
  .trust { author := { id := [9], url := none }, date := 0, extra := "" }

def sampleProof : Proof :=
  { body := "b\n", signature := "SIG", digest := [], content := sampleContent }

/-! ## Claims -/

/-- The byte sequence the specification's rendering sentence enumerates:
begin-block marker, newline, body, begin-signature marker, newline,
signature, end-block marker, newline — with no newline between the
signature and the end-block marker. Stated from the spec's words, to be
compared with `Proof.render` (the translation of the code). -/
def renderSpecClaim (p : Proof) : String :=
  p.content.proof_type.begin_block ++ "\n" ++ p.body ++
    p.content.proof_type.begin_signature ++ "\n" ++ p.signature ++
    p.content.proof_type.end_block ++ "\n"

/-- C3 (counterexample): the claimed byte sequence omits the newline the
code writes between the signature and the end-block marker, so rendering a
concrete proof differs from the claimed sequence. -/
theorem c3_render_counterexample : Proof.render sampleProof ≠ renderSpecClaim sampleProof := by
  decide

/-- C3 (amended): rendering a Proof emits exactly: begin-block marker,
newline, body, begin-signature marker, newline, signature, newline,
end-block marker, newline — with no other bytes interleaved. -/
theorem c3_render_amended (p : Proof) :
    p.render =
      p.content.proof_type.begin_block ++ "\n" ++ p.body ++
        p.content.proof_type.begin_signature ++ "\n" ++ p.signature ++ "\n" ++
        p.content.proof_type.end_block ++ "\n" := by
  unfold Proof.render Proof.renderParts String.join
  simp only [List.foldl]
  rw [empty_sappend]

/-- C4: while in the body state each non-marker line is appended to the body
accumulator as line + newline, and the parse fails with `bodyTooLarge`
exactly when the accumulated body length exceeds 16000 bytes (a body of at
most 16000 bytes never triggers it); symmetrically, in the signature state
accumulation past 2000 bytes fails with `signatureTooLarge`. -/
theorem c4_parser_caps :
    (∀ (st : ParseState) (line : String), st.stage = .Body →
        trimS line ≠ st.type_.begin_signature →
        ((process_line st line = .error .bodyTooLarge ↔
            16000 < bytelen (st.body ++ line ++ "\n")) ∧
          (bytelen (st.body ++ line ++ "\n") ≤ 16000 →
            process_line st line =
              .ok { st with body := st.body ++ line ++ "\n" }))) ∧
    (∀ (st : ParseState) (line : String), st.stage = .Signature →
        trimS line ≠ st.type_.end_block →
        ((process_line st line = .error .signatureTooLarge ↔
            2000 < bytelen (st.signature ++ line ++ "\n")) ∧
          (bytelen (st.signature ++ line ++ "\n") ≤ 2000 →
            process_line st line =
              .ok { st with signature := st.signature ++ line ++ "\n" }))) := by
  constructor
  · intro st line hstage hm
    obtain ⟨stg, bd, sg, tp, pf⟩ := st
    cases stg with
    | None => simp at hstage
    | Signature => simp at hstage
    | Body =>
      constructor
      · by_cases hlen : 16000 < bytelen (bd ++ line ++ "\n")
        · constructor
          · intro _; exact hlen
          · intro _
            simp only [process_line]
            rw [if_neg hm, if_pos (show bytelen (bd ++ line ++ "\n") > 16000 from hlen)]
        · constructor
          · intro herr
            rw [pl_body_append bd sg tp pf line hm (by omega)] at herr
            exact absurd herr (by simp)
          · intro h; exact absurd h hlen
      · intro hle
        exact pl_body_append bd sg tp pf line hm hle
  · intro st line hstage hm
    obtain ⟨stg, bd, sg, tp, pf⟩ := st
    cases stg with
    | None => simp at hstage
    | Body => simp at hstage
    | Signature =>
      constructor
      · by_cases hlen : 2000 < bytelen (sg ++ line ++ "\n")
        · constructor
          · intro _; exact hlen
          · intro _
            simp only [process_line]
            rw [if_neg hm, if_pos (show bytelen (sg ++ line ++ "\n") > 2000 from hlen)]
        · constructor
          · intro herr
            rw [pl_sig_append bd sg tp pf line hm (by omega)] at herr
            exact absurd herr (by simp)
          · intro h; exact absurd h hlen
      · intro hle
        exact pl_sig_append bd sg tp pf line hm hle

/-- C4 witness: concrete body and signature lines below the caps are
accumulated with a trailing newline. -/
theorem c4_parser_caps_witness :
    process_line ⟨.Body, "", "", .Trust, []⟩ "x" = .ok ⟨.Body, "x\n", "", .Trust, []⟩ ∧
    process_line ⟨.Signature, "", "", .Trust, []⟩ "s" =
      .ok ⟨.Signature, "", "s\n", .Trust, []⟩ := by
  constructor
  · have h := (c4_parser_caps.1 ⟨.Body, "", "", .Trust, []⟩ "x" rfl (by decide)).2
      (by decide)
    rw [h]; decide
  · have h := (c4_parser_caps.2 ⟨.Signature, "", "", .Trust, []⟩ "s" rfl (by decide)).2
      (by decide)
    rw [h]; decide

/-- C7: when authenticated decryption succeeds but the public key recomputed
from the recovered secret differs from the stored `public_key`, unlocking
fails with the distinct `pubKeyMismatch` integrity error (not the
authentication error), returning no identity. -/
theorem c7_pubkey_mismatch (l : LockedId) (passphrase : String) (sec_key : List Nat)
    (hv : l.version = current_version)
    (hopen : sivOpen (deriveKey passphrase l.pass.salt) l.seal_nonce l.sealed_secret_key
      = some sec_key)
    (hmism : l.public_key ≠ pubkeyOf sec_key) :
    l.to_unlocked passphrase = .error .pubKeyMismatch ∧
      UnlockError.pubKeyMismatch ≠ UnlockError.authFailed := by
  constructor
  · unfold LockedId.to_unlocked
    rw [if_neg (show ¬ l.version ≠ current_version by simp [hv])]
    simp only [hopen]
    rw [if_pos (show l.public_key ≠ (OwnId.new l.url sec_key).keypair.public from hmism)]
  · decide

def mismatchLocked : LockedId :=
  { version := current_version
    url := "https://example.com/crev"
    public_key := [9, 9]
    sealed_secret_key := sivSeal (deriveKey "p" [4]) [5] [1, 2]
    seal_nonce := [5]
    pass := { salt := [4], iterations := 192, memory_size := 4096,
              version := 0x13, variant := "argon2id" } }

/-- C7 witness: a concrete locked identity whose stored public key was
swapped unlocks to the `pubKeyMismatch` error. -/
theorem c7_pubkey_mismatch_witness :
    mismatchLocked.to_unlocked "p" = .error .pubKeyMismatch ∧
      UnlockError.pubKeyMismatch ≠ UnlockError.authFailed :=
  c7_pubkey_mismatch mismatchLocked "p" [1, 2] rfl (by decide) (by decide)

/-- C8: the traced unlock agrees with `to_unlocked` on its result, and on an
unsupported version it fails with the version error having executed no
cryptographic primitive (empty trace). -/
theorem c8_version_gate :
    (∀ (l : LockedId) (pw : String), (l.to_unlocked_traced pw).1 = l.to_unlocked pw) ∧
    (∀ (l : LockedId) (pw : String), l.version ≠ current_version →
        l.to_unlocked_traced pw = (.error .unsupportedVersion, [])) := by
  constructor
  · intro l pw
    unfold LockedId.to_unlocked LockedId.to_unlocked_traced
    by_cases hv : l.version ≠ current_version
    · rw [if_pos hv, if_pos hv]
    · rw [if_neg hv, if_neg hv]
      cases hop : sivOpen (deriveKey pw l.pass.salt) l.seal_nonce l.sealed_secret_key with
      | none => simp only [hop]
      | some sk =>
        simp only [hop]
        by_cases hpk : l.public_key ≠ (OwnId.new l.url sk).keypair.public
        · rw [if_pos hpk, if_pos hpk]
        · rw [if_neg hpk, if_neg hpk]
  · intro l pw h
    unfold LockedId.to_unlocked_traced
    rw [if_pos h]

def badVersionLocked : LockedId :=
  { version := current_version + 1
    url := "https://example.com/crev"
    public_key := pubkeyOf [1, 2]
    sealed_secret_key := sivSeal (deriveKey "p" [4]) [5] [1, 2]
    seal_nonce := [5]
    pass := { salt := [4], iterations := 192, memory_size := 4096,
              version := 0x13, variant := "argon2id" } }

/-- C8 witness: a concrete locked identity with an unsupported version fails
with the version error and an empty primitive trace. -/
theorem c8_version_gate_witness :
    (badVersionLocked.to_unlocked_traced "p").1 = badVersionLocked.to_unlocked "p" ∧
    badVersionLocked.to_unlocked_traced "p" = (.error .unsupportedVersion, []) :=
  ⟨c8_version_gate.1 badVersionLocked "p",
   c8_version_gate.2 badVersionLocked "p" (by decide)⟩

/-- C10: locking requires the identity's URL: with `url = none` the
panicking unwrap is reached (modelled as `none`); with the URL present the
panic branch is unreachable and locking produces a locked identity. -/
theorem c10_lock_requires_url :
    (∀ (own_id : OwnId) (passphrase : String) (salt nonce : List Nat),
        own_id.id.url = none →
        LockedId.from_own_id own_id passphrase salt nonce = none) ∧
    (∀ (own_id : OwnId) (passphrase : String) (salt nonce : List Nat) (u : String),
        own_id.id.url = some u →
        ∃ l : LockedId, LockedId.from_own_id own_id passphrase salt nonce = some l) := by
  constructor
  · intro own_id pw salt nonce h
    unfold LockedId.from_own_id
    rw [h]
  · intro own_id pw salt nonce u h
    unfold LockedId.from_own_id
    rw [h]
    exact ⟨_, rfl⟩

/-- C10 witness: locking panics (modelled `none`) on a concrete identity
without a URL, and succeeds on one with a URL. -/
theorem c10_lock_requires_url_witness :
    LockedId.from_own_id noUrlOwnId "p" [4] [5] = none ∧
    ∃ l : LockedId, LockedId.from_own_id sampleOwnId "p" [4] [5] = some l :=
  ⟨c10_lock_requires_url.1 noUrlOwnId "p" [4] [5] rfl,
   c10_lock_requires_url.2 sampleOwnId "p" [4] [5] "https://example.com/crev" rfl⟩

/-- C6: every Proof the system constructs — by `sign_by` on local content or
by `to_parsed` on a parsed record — satisfies digest = blake2sum(body bytes),
and the digest is never consulted by `verify`. -/
theorem c6_digest_invariant :
    (∀ (c : Content) (id : OwnId),
        (c.sign_by id).digest = blake2sum (strBytes (c.sign_by id).body)) ∧
    (∀ (s : Serialized) (p : Proof), s.to_parsed = some p →
        p.digest = blake2sum (strBytes p.body)) ∧
    (∀ (p : Proof) (d : List Nat),
        Proof.verify { p with digest := d } = Proof.verify p) := by
  refine ⟨fun c id => rfl, ?_, ?_⟩
  · intro s p h
    unfold Serialized.to_parsed at h
    cases hc : Content.parse s.body s.type_ with
    | none => rw [hc] at h; simp at h
    | some c =>
      rw [hc] at h
      simp only [Option.some.injEq] at h
      rw [← h]
  · intro p d
    cases p
    rfl

def sampleSerialized : Serialized :=
  { body := "kind: trust\nfrom: AwEC\n", signature := "SIG", type_ := .Trust }

def sampleParsedProof : Proof :=
  { body := sampleSerialized.body
    signature := "SIG"
    digest := blake2sum (strBytes sampleSerialized.body)
    content := .trust { author := { id := pubkeyOf [1, 2], url := none },
                        date := 0, extra := "" } }

/-- C6 witness: a concrete parsed record carries the digest of its own body,
and changing a concrete proof's digest leaves verification unchanged. -/
theorem c6_digest_invariant_witness :
    sampleParsedProof.digest = blake2sum (strBytes sampleParsedProof.body) ∧
    Proof.verify { sampleProof with digest := [7] } = Proof.verify sampleProof :=
  ⟨c6_digest_invariant.2.1 sampleSerialized sampleParsedProof (by decide),
   c6_digest_invariant.2.2 sampleProof [7]⟩

/-- C2: unlocking a locked identity with the locking passphrase succeeds and
reconstructs an identity with the same public key bytes; unlocking with a
different passphrase fails with the authentication error and returns no
identity. -/
theorem c2_vault_roundtrip (own_id : OwnId) (pw pw' : String) (salt nonce : List Nat)
    (u : String) (l : LockedId)
    (hurl : own_id.id.url = some u)
    (hwf : own_id.keypair.wf)
    (hlock : LockedId.from_own_id own_id pw salt nonce = some l) :
    (∃ res : OwnId, l.to_unlocked pw = .ok res ∧
        res.keypair.public = own_id.keypair.public) ∧
    (pw' ≠ pw → l.to_unlocked pw' = .error .authFailed) := by
  have hwf' : own_id.keypair.public = pubkeyOf own_id.keypair.secret := hwf
  unfold LockedId.from_own_id at hlock
  rw [hurl] at hlock
  have hl := Option.some.inj hlock
  have hv : l.version = current_version := by rw [← hl]
  have hpk : l.public_key = own_id.keypair.public := by rw [← hl]
  have hss : l.sealed_secret_key =
      sivSeal (deriveKey pw salt) nonce own_id.keypair.secret := by rw [← hl]
  have hsn : l.seal_nonce = nonce := by rw [← hl]
  have hsalt : l.pass.salt = salt := by rw [← hl]
  constructor
  · refine ⟨OwnId.new l.url own_id.keypair.secret, ?_, ?_⟩
    · unfold LockedId.to_unlocked
      rw [if_neg (show ¬ (l.version ≠ current_version) by simp [hv])]
      rw [hsalt, hsn, hss]
      simp only [sivOpen_sivSeal]
      rw [if_neg (show ¬ (l.public_key ≠
          (OwnId.new l.url own_id.keypair.secret).keypair.public) by
        simp only [ne_eq, not_not]
        rw [hpk, hwf']
        rfl)]
    · show pubkeyOf own_id.keypair.secret = own_id.keypair.public
      exact hwf'.symm
  · intro hne
    unfold LockedId.to_unlocked
    rw [if_neg (show ¬ (l.version ≠ current_version) by simp [hv])]
    rw [hsalt, hsn, hss, sivOpen_wrong_key (deriveKey_inj_pass hne)]

def sampleLocked : LockedId :=
  { version := current_version
    url := "https://example.com/crev"
    public_key := pubkeyOf [1, 2]
    sealed_secret_key := sivSeal (deriveKey "a" [4]) [5] [1, 2]
    seal_nonce := [5]
    pass := { salt := [4], iterations := 192, memory_size := 4096,
              version := 0x13, variant := "argon2id" } }

/-- C2 witness: a concrete identity locked under passphrase "a" unlocks with
"a" to the same public key and fails with "b" with the authentication
error. -/
theorem c2_vault_roundtrip_witness :
    (∃ res : OwnId, sampleLocked.to_unlocked "a" = .ok res ∧
        res.keypair.public = sampleOwnId.keypair.public) ∧
    sampleLocked.to_unlocked "b" = .error .authFailed := by
  obtain ⟨h1, h2⟩ := c2_vault_roundtrip sampleOwnId "a" "b" [4] [5]
    "https://example.com/crev" sampleLocked rfl rfl (by decide)
  exact ⟨h1, h2 (by decide)⟩

/-- C1: a proof signed by an identity verifies against that identity's
public key; verification fails with the signature error against a different
public key (a content whose author id differs), or when the stored body's
bytes are altered between signing and verification. -/
theorem c1_sign_verify (c : Content) (id : OwnId)
    (hwf : id.keypair.wf)
    (hauthor : c.author_id = id.keypair.public)
    (hsec : ∀ b ∈ id.keypair.secret, b < 256) :
    (c.sign_by id).verify = .ok () ∧
    (∀ c2 : Content, c2.author_id ≠ id.keypair.public →
        Proof.verify { c.sign_by id with content := c2 } = .error .badSignature) ∧
    (∀ body2 : String, strBytes body2 ≠ strBytes c.render →
        Proof.verify { c.sign_by id with body := body2 } = .error .badSignature) ∧
    (∀ body2 : String,
        Proof.verify { c.sign_by id with
          body := body2
          signature := b64encode (id.sign (strBytes body2)) } = .ok ()) := by
  have hwf' : id.keypair.public = pubkeyOf id.keypair.secret := hwf
  have hpk256 : ∀ x ∈ pubkeyOf id.keypair.secret, x < 256 := by
    intro x hx
    rcases List.mem_cons.mp hx with h | h
    · omega
    · exact hsec x h
  have hdec : ∀ msg : List Nat, (∀ x ∈ msg, x < 256) →
      b64decode (trimS (b64encode (encodePair (pubkeyOf id.keypair.secret) msg))) =
        some (encodePair (pubkeyOf id.keypair.secret) msg) := by
    intro msg hm
    rw [trimS_b64encode]
    show b64decodeChunks (b64encodeChunks _) = _
    exact b64_roundtrip _ (encodePair_lt256 hpk256 hm)
  refine ⟨?_, ?_, ?_, ?_⟩
  · show verify_signature c.author_id (strBytes c.render)
      (trimS (b64encode (encodePair (pubkeyOf id.keypair.secret) (strBytes c.render)))) =
      .ok ()
    unfold verify_signature
    simp only [hdec (strBytes c.render) (strBytes_lt256 _)]
    rw [if_pos (by rw [hauthor, hwf'])]
  · intro c2 hne
    show verify_signature c2.author_id (strBytes c.render)
      (trimS (b64encode (encodePair (pubkeyOf id.keypair.secret) (strBytes c.render)))) =
      .error .badSignature
    unfold verify_signature
    simp only [hdec (strBytes c.render) (strBytes_lt256 _)]
    rw [if_neg ?hcond]
    case hcond =>
      intro he
      have hpk := (encodePair_inj he).1
      exact hne (hpk.symm.trans (hwf'.symm))
  · intro body2 hb
    show verify_signature c.author_id (strBytes body2)
      (trimS (b64encode (encodePair (pubkeyOf id.keypair.secret) (strBytes c.render)))) =
      .error .badSignature
    unfold verify_signature
    simp only [hdec (strBytes c.render) (strBytes_lt256 _)]
    rw [if_neg ?hcond2]
    case hcond2 =>
      intro he
      rw [hauthor, hwf'] at he
      have hmsg := (encodePair_inj he).2
      exact hb hmsg.symm
  · intro body2
    show verify_signature c.author_id (strBytes body2)
      (trimS (b64encode (encodePair (pubkeyOf id.keypair.secret) (strBytes body2)))) =
      .ok ()
    unfold verify_signature
    simp only [hdec (strBytes body2) (strBytes_lt256 _)]
    rw [if_pos (by rw [hauthor, hwf'])]

/-- C1 witness: a concrete signed proof verifies; swapping the author or
tampering with the body makes verification fail with the signature error. -/
theorem c1_sign_verify_witness :
    (sampleContent.sign_by sampleOwnId).verify = .ok () ∧
    Proof.verify { sampleContent.sign_by sampleOwnId with content := otherAuthorContent } =
      .error .badSignature ∧
    Proof.verify { sampleContent.sign_by sampleOwnId with body := "tampered" } =
      .error .badSignature ∧
    Proof.verify { sampleContent.sign_by sampleOwnId with
      body := "B"
      signature := b64encode (sampleOwnId.sign (strBytes "B")) } = .ok () := by
  obtain ⟨h1, h2, h3, h4⟩ := c1_sign_verify sampleContent sampleOwnId rfl rfl (by decide)
  exact ⟨h1, h2 otherAuthorContent (by decide), h3 "tampered" (by decide), h4 "B"⟩

/-- C9: `Serialized::parse` is all-or-nothing — when a stream parses to a
record list, appending an offending line makes the whole parse return an
error, discarding the previously emitted records rather than surfacing them
as partial results. -/
theorem c9_all_or_nothing (ls : List String) (rs : List Serialized)
    (h : Serialized.parse ls = .ok rs) :
    Serialized.parse (ls ++ ["@corrupt"]) = .error .unexpectedLine := by
  unfold Serialized.parse at h ⊢
  cases hp : processLines initState ls with
  | error e => rw [hp] at h; simp at h
  | ok st =>
    rw [hp] at h
    simp only at h
    have hstage : st.stage = Stage.None := by
      unfold finishS at h
      by_cases hs : st.stage ≠ Stage.None
      · rw [if_pos hs] at h; simp at h
      · exact not_ne_iff.mp hs
    rw [processLines_append_ok _ hp]
    obtain ⟨stg, bd, sg, tp, pf⟩ := st
    cases stg with
    | Body => simp at hstage
    | Signature => simp at hstage
    | None =>
      rw [processLines, pl_seek_garbage bd sg tp pf "@corrupt"
        (by decide) (by decide) (by decide) (by decide)]

/-- C9 witness: a stream parsing to one record followed by a corrupt line
yields an error carrying no records. -/
theorem c9_all_or_nothing_witness :
    Serialized.parse
        (["-----BEGIN CREV TRUST-----", "b", "-----BEGIN CREV TRUST SIGNATURE-----",
          "s", "-----END CREV TRUST-----"] ++ ["@corrupt"]) =
      .error .unexpectedLine :=
  c9_all_or_nothing
    ["-----BEGIN CREV TRUST-----", "b", "-----BEGIN CREV TRUST SIGNATURE-----",
     "s", "-----END CREV TRUST-----"]
    [⟨"b\n", "s\n", .Trust⟩] (by decide)

/-- C5: a stream of two well-formed proof blocks of differing variants
(possibly separated by blank lines) parses to exactly the two records in
input order, each carrying its own block's variant; a stream ending while
the parser is mid-body or mid-signature fails with the unexpected-EOF
error. -/
theorem c5_multidoc :
    (∀ (t1 t2 : ProofType) (b1 s1 b2 s2 g1 g2 g3 : List String),
        t1 ≠ t2 →
        (∀ l ∈ g1, trimS l = "") → (∀ l ∈ g2, trimS l = "") →
        (∀ l ∈ g3, trimS l = "") →
        (∀ l ∈ b1, trimS l ≠ t1.begin_signature) → bytelen (joinln b1) ≤ 16000 →
        (∀ l ∈ s1, trimS l ≠ t1.end_block) → bytelen (joinln s1) ≤ 2000 →
        (∀ l ∈ b2, trimS l ≠ t2.begin_signature) → bytelen (joinln b2) ≤ 16000 →
        (∀ l ∈ s2, trimS l ≠ t2.end_block) → bytelen (joinln s2) ≤ 2000 →
        Serialized.parse (g1 ++ blockLines t1 b1 s1 ++ g2 ++ blockLines t2 b2 s2 ++ g3) =
          .ok [⟨joinln b1, joinln s1, t1⟩, ⟨joinln b2, joinln s2, t2⟩]) ∧
    (∀ (ls : List String) (st : ParseState),
        processLines initState ls = .ok st → st.stage ≠ .None →
        Serialized.parse ls = .error .unexpectedEof) := by
  constructor
  · intro t1 t2 b1 s1 b2 s2 g1 g2 g3 _ hg1 hg2 hg3 hb1 hb1l hs1 hs1l hb2 hb2l hs2 hs2l
    have h1 : processLines initState g1 = .ok ⟨.None, "", "", .Trust, []⟩ :=
      seek_blanks g1 "" "" .Trust [] hg1
    have h2 : processLines initState (g1 ++ blockLines t1 b1 s1) =
        .ok ⟨.None, "", "", t1, [⟨joinln b1, joinln s1, t1⟩]⟩ := by
      rw [processLines_append_ok _ h1]
      exact block_phase t1 b1 s1 .Trust [] hb1 hb1l hs1 hs1l
    have h3 : processLines initState (g1 ++ blockLines t1 b1 s1 ++ g2) =
        .ok ⟨.None, "", "", t1, [⟨joinln b1, joinln s1, t1⟩]⟩ := by
      rw [processLines_append_ok _ h2]
      exact seek_blanks g2 "" "" t1 [⟨joinln b1, joinln s1, t1⟩] hg2
    have h4 : processLines initState
          (g1 ++ blockLines t1 b1 s1 ++ g2 ++ blockLines t2 b2 s2) =
        .ok ⟨.None, "", "", t2,
          [⟨joinln b1, joinln s1, t1⟩, ⟨joinln b2, joinln s2, t2⟩]⟩ := by
      rw [processLines_append_ok _ h3]
      exact block_phase t2 b2 s2 t1 [⟨joinln b1, joinln s1, t1⟩] hb2 hb2l hs2 hs2l
    have h5 : processLines initState
          (g1 ++ blockLines t1 b1 s1 ++ g2 ++ blockLines t2 b2 s2 ++ g3) =
        .ok ⟨.None, "", "", t2,
          [⟨joinln b1, joinln s1, t1⟩, ⟨joinln b2, joinln s2, t2⟩]⟩ := by
      rw [processLines_append_ok _ h4]
      exact seek_blanks g3 "" "" t2 [⟨joinln b1, joinln s1, t1⟩,
        ⟨joinln b2, joinln s2, t2⟩] hg3
    unfold Serialized.parse
    simp only [h5]
    unfold finishS
    rw [if_neg (by simp)]
  · intro ls st hp hstage
    unfold Serialized.parse
    simp only [hp]
    unfold finishS
    rw [if_pos hstage]

/-- C5 witness: two concrete blocks of differing variants parse to the two
records in order; a lone begin marker fails with the unexpected-EOF error. -/
theorem c5_multidoc_witness :
    Serialized.parse
        ([""] ++ blockLines .Trust ["a"] ["s"] ++ [""] ++ blockLines .Code ["c"] ["d"]
          ++ []) =
      .ok [⟨joinln ["a"], joinln ["s"], .Trust⟩, ⟨joinln ["c"], joinln ["d"], .Code⟩] ∧
    Serialized.parse ["-----BEGIN CREV TRUST-----"] = .error .unexpectedEof := by
  constructor
  · exact c5_multidoc.1 .Trust .Code ["a"] ["s"] ["c"] ["d"] [""] [""] []
      (by decide) (by decide) (by decide) (by decide) (by decide) (by decide)
      (by decide) (by decide) (by decide) (by decide) (by decide) (by decide)
  · exact c5_multidoc.2 ["-----BEGIN CREV TRUST-----"] ⟨.Body, "", "", .Trust, []⟩
      (by decide) (by decide)
